import Mathlib

/-!
Shallow embedding of the SimpleBank ledger engine (src/SimpleBank/src/bank.rs).

Rust `HashMap` fields are embedded as association lists; `BigInt` as `Int`.
`HashMap::entry(k).and_modify(f)` modifies the entry at `k` when present and
does nothing otherwise; `HashMap::insert` replaces an existing entry at the
key or adds a fresh one; both are embedded below.  The `unwrap()` calls in
`withdraw`, `transfer` and `buy_investment` panic when the actor is absent
from `balances`; those three operations therefore return
`Option (Option String × BankState)`, where the outer `none` is the panic and
the inner `Option String` is the Rust return value (`Some err` / `None`).
-/

structure Investment where
  owner : String
  amount : Int
deriving DecidableEq, Repr

structure BankState where
  balances : List (String × Int)
  investments : List (Int × Investment)
  next_id : Int
deriving DecidableEq, Repr

/-- `HashMap::get` on the balances map. -/
def lookupBal : List (String × Int) → String → Option Int
  | [], _ => none
  | (k, v) :: rest, key => if k = key then some v else lookupBal rest key

/-- `HashMap::entry(key).and_modify(f)` on the balances map: modify the entry
when the key is present, otherwise leave the map unchanged. -/
def andModify : List (String × Int) → String → (Int → Int) → List (String × Int)
  | [], _, _ => []
  | (k, v) :: rest, key, f =>
      if k = key then (k, f v) :: rest else (k, v) :: andModify rest key f

/-- `HashMap::get` on the investments map. -/
def lookupInv : List (Int × Investment) → Int → Option Investment
  | [], _ => none
  | (k, v) :: rest, key => if k = key then some v else lookupInv rest key

/-- `HashMap::insert` on the investments map: replace the entry when the key
is present, otherwise add a fresh entry. -/
def insertInv : List (Int × Investment) → Int → Investment → List (Int × Investment)
  | [], key, inv => [(key, inv)]
  | (k, v) :: rest, key, inv =>
      if k = key then (key, inv) :: rest else (k, v) :: insertInv rest key inv

/-- Sum of all account balances. -/
def sumBal (bs : List (String × Int)) : Int := (bs.map Prod.snd).sum

def errInvalidAmount : String := "Amount should be greater than zero"

def errInsufficientBalance : String := "Balance is too low"

def errUnknownInvestment : String := "No investment with this id"

def errUnauthorizedSale : String := "Seller can't sell an investment they don't own"

/-- `deposit` from bank.rs: reject non-positive amounts, otherwise add the
amount to the depositor's entry when it exists (silent no-op otherwise). -/
def deposit (s : BankState) (depositor : String) (amount : Int) :
    Option String × BankState :=
  if amount ≤ 0 then (some errInvalidAmount, s)
  else (none, { s with balances := andModify s.balances depositor (fun curr => curr + amount) })

/-- `withdraw` from bank.rs: reject non-positive amounts, panic (outer `none`)
when the withdrawer is absent, reject when the balance is below the amount,
otherwise subtract the amount. -/
def withdraw (s : BankState) (withdrawer : String) (amount : Int) :
    Option (Option String × BankState) :=
  if amount ≤ 0 then some (some errInvalidAmount, s)
  else
    match lookupBal s.balances withdrawer with
    | none => none
    | some bal =>
        if bal < amount then some (some errInsufficientBalance, s)
        else some (none,
          { s with balances := andModify s.balances withdrawer (fun curr => curr - amount) })

/-- `transfer` from bank.rs: reject non-positive amounts, panic when the
sender is absent, reject when the sender's balance is below the amount,
otherwise subtract from the sender and add to the receiver (the receiver
update is a silent no-op when the receiver is absent). -/
def transfer (s : BankState) (sender receiver : String) (amount : Int) :
    Option (Option String × BankState) :=
  if amount ≤ 0 then some (some errInvalidAmount, s)
  else
    match lookupBal s.balances sender with
    | none => none
    | some bal =>
        if bal < amount then some (some errInsufficientBalance, s)
        else
          let b1 := andModify s.balances sender (fun curr => curr - amount)
          let b2 := andModify b1 receiver (fun curr => curr + amount)
          some (none, { s with balances := b2 })

/-- `buy_investment` from bank.rs: reject non-positive amounts, panic when
the buyer is absent, reject when the balance is below the amount, otherwise
subtract the amount, insert `{owner: buyer, amount}` at key `next_id`, and
increment `next_id`. -/
def buy_investment (s : BankState) (buyer : String) (amount : Int) :
    Option (Option String × BankState) :=
  if amount ≤ 0 then some (some errInvalidAmount, s)
  else
    match lookupBal s.balances buyer with
    | none => none
    | some bal =>
        if bal < amount then some (some errInsufficientBalance, s)
        else some (none,
          { balances := andModify s.balances buyer (fun curr => curr - amount)
            investments := insertInv s.investments s.next_id ⟨buyer, amount⟩
            next_id := s.next_id + 1 })

/-- `sell_investment` from bank.rs: reject unknown ids, reject sellers who do
not own the investment, otherwise add the investment's amount to the seller's
balance entry (silent no-op when the seller is absent from `balances`); the
investment record is NOT removed (the removal line is commented out). -/
def sell_investment (s : BankState) (seller : String) (investment_id : Int) :
    Option String × BankState :=
  match lookupInv s.investments investment_id with
  | none => (some errUnknownInvestment, s)
  | some investment =>
      if investment.owner ≠ seller then (some errUnauthorizedSale, s)
      else (none,
        { s with balances := andModify s.balances seller (fun curr => curr + investment.amount) })

/-- All investment keys are strictly below `next_id`; the id-freshness
invariant of the ledger. -/
def goodIds (s : BankState) : Prop :=
  ∀ p ∈ s.investments, p.1 < s.next_id

instance (s : BankState) : Decidable (goodIds s) := by
  unfold goodIds; infer_instance

/-! ### Lemmas about the embedded map operations -/

theorem lookupBal_andModify_self (bs : List (String × Int)) (key : String) (f : Int → Int) :
    lookupBal (andModify bs key f) key = (lookupBal bs key).map f := by
  induction bs with
  | nil => rfl
  | cons p rest ih =>
    obtain ⟨k, v⟩ := p
    by_cases h : k = key
    · simp [andModify, lookupBal, h]
    · simp [andModify, lookupBal, h, ih]

theorem lookupBal_andModify_ne (bs : List (String × Int)) (key key' : String) (f : Int → Int)
    (h : key' ≠ key) : lookupBal (andModify bs key f) key' = lookupBal bs key' := by
  induction bs with
  | nil => rfl
  | cons p rest ih =>
    obtain ⟨k, v⟩ := p
    by_cases hk : k = key
    · subst hk
      simp [andModify, lookupBal, Ne.symm h]
    · by_cases hk' : k = key'
      · simp [andModify, lookupBal, hk, hk', h]
      · simp [andModify, lookupBal, hk, hk', ih]

theorem andModify_absent (bs : List (String × Int)) (key : String) (f : Int → Int)
    (h : lookupBal bs key = none) : andModify bs key f = bs := by
  induction bs with
  | nil => rfl
  | cons p rest ih =>
    obtain ⟨k, v⟩ := p
    by_cases hk : k = key
    · simp [lookupBal, hk] at h
    · simp [lookupBal, hk] at h
      simp [andModify, hk, ih h]

theorem sumBal_andModify (bs : List (String × Int)) (key : String) (f : Int → Int) (v : Int)
    (h : lookupBal bs key = some v) :
    sumBal (andModify bs key f) = sumBal bs + (f v - v) := by
  induction bs with
  | nil => simp [lookupBal] at h
  | cons p rest ih =>
    obtain ⟨k, w⟩ := p
    by_cases hk : k = key
    · simp [lookupBal, hk] at h
      subst h
      simp [andModify, hk, sumBal]
      ring
    · simp [lookupBal, hk] at h
      simp [andModify, hk, sumBal] at ih ⊢
      rw [ih h]
      ring

theorem lookupInv_insertInv_self (invs : List (Int × Investment)) (key : Int)
    (inv : Investment) : lookupInv (insertInv invs key inv) key = some inv := by
  induction invs with
  | nil => simp [insertInv, lookupInv]
  | cons p rest ih =>
    obtain ⟨k, w⟩ := p
    by_cases hk : k = key
    · simp [insertInv, lookupInv, hk]
    · simp [insertInv, lookupInv, hk, ih]

theorem lookupInv_insertInv_ne (invs : List (Int × Investment)) (key key' : Int)
    (inv : Investment) (h : key' ≠ key) :
    lookupInv (insertInv invs key inv) key' = lookupInv invs key' := by
  induction invs with
  | nil => simp [insertInv, lookupInv, Ne.symm h]
  | cons p rest ih =>
    obtain ⟨k, w⟩ := p
    by_cases hk : k = key
    · subst hk
      simp [insertInv, lookupInv, Ne.symm h]
    · by_cases hk' : k = key'
      · simp [insertInv, lookupInv, hk, hk', h]
      · simp [insertInv, lookupInv, hk, hk', ih]

theorem length_insertInv_absent (invs : List (Int × Investment)) (key : Int)
    (inv : Investment) (h : lookupInv invs key = none) :
    (insertInv invs key inv).length = invs.length + 1 := by
  induction invs with
  | nil => simp [insertInv]
  | cons p rest ih =>
    obtain ⟨k, w⟩ := p
    by_cases hk : k = key
    · simp [lookupInv, hk] at h
    · simp [lookupInv, hk] at h
      simp [insertInv, hk, ih h]

theorem mem_insertInv (invs : List (Int × Investment)) (key : Int) (inv : Investment)
    (p : Int × Investment) (h : p ∈ insertInv invs key inv) : p ∈ invs ∨ p = (key, inv) := by
  induction invs with
  | nil => simpa [insertInv] using h
  | cons q rest ih =>
    obtain ⟨k, w⟩ := q
    by_cases hk : k = key
    · simp [insertInv, hk] at h
      rcases h with h | h
      · right; simp [h]
      · left; simp [h]
    · simp [insertInv, hk] at h
      rcases h with h | h
      · left; simp [h]
      · rcases ih h with h2 | h2
        · left; simp [h2]
        · right; exact h2

theorem lookupInv_eq_none_of_keys_lt (invs : List (Int × Investment)) (m : Int)
    (h : ∀ p ∈ invs, p.1 < m) : lookupInv invs m = none := by
  induction invs with
  | nil => rfl
  | cons p rest ih =>
    obtain ⟨k, w⟩ := p
    by_cases hk : k = m
    · exfalso
      have := h (k, w) (by simp)
      simp [hk] at this
    · simp [lookupInv, hk]
      exact ih (fun q hq => h q (by simp [hq]))

/-! ### Shape lemmas for the five operations -/

theorem deposit_shape (s : BankState) (x : String) (n : Int) :
    (deposit s x n).2.investments = s.investments ∧ (deposit s x n).2.next_id = s.next_id := by
  unfold deposit
  split <;> simp

theorem withdraw_shape (s : BankState) (x : String) (n : Int) (r : Option String × BankState)
    (h : withdraw s x n = some r) :
    r.2.investments = s.investments ∧ r.2.next_id = s.next_id := by
  unfold withdraw at h
  split at h
  · obtain rfl := Option.some.inj h
    simp
  · split at h
    · exact absurd h (by simp)
    · split at h
      · obtain rfl := Option.some.inj h
        simp
      · obtain rfl := Option.some.inj h
        simp

theorem transfer_shape (s : BankState) (x y : String) (n : Int) (r : Option String × BankState)
    (h : transfer s x y n = some r) :
    r.2.investments = s.investments ∧ r.2.next_id = s.next_id := by
  unfold transfer at h
  split at h
  · obtain rfl := Option.some.inj h
    simp
  · split at h
    · exact absurd h (by simp)
    · split at h
      · obtain rfl := Option.some.inj h
        simp
      · obtain rfl := Option.some.inj h
        simp

theorem buy_investment_shape (s : BankState) (x : String) (n : Int)
    (r : Option String × BankState) (h : buy_investment s x n = some r) :
    (r.1 = none ∧ r.2.investments = insertInv s.investments s.next_id ⟨x, n⟩ ∧
      r.2.next_id = s.next_id + 1) ∨ (r.1 ≠ none ∧ r.2 = s) := by
  unfold buy_investment at h
  split at h
  · obtain rfl := Option.some.inj h
    right
    simp [errInvalidAmount]
  · split at h
    · exact absurd h (by simp)
    · split at h
      · obtain rfl := Option.some.inj h
        right
        simp [errInsufficientBalance]
      · obtain rfl := Option.some.inj h
        left
        simp

theorem sell_investment_shape (s : BankState) (x : String) (id : Int) :
    (sell_investment s x id).2.investments = s.investments ∧
    (sell_investment s x id).2.next_id = s.next_id := by
  unfold sell_investment
  split
  · simp
  · split <;> simp

theorem goodIds_of_eq (s t : BankState) (hinv : t.investments = s.investments)
    (hid : t.next_id = s.next_id) (h : goodIds s) : goodIds t := by
  intro p hp
  rw [hinv] at hp
  rw [hid]
  exact h p hp

/-! ### Claim theorems -/

/-- C4: for every amount `a ≤ 0`, each of deposit, withdraw, transfer and
buy_investment returns the InvalidAmount error and leaves the entire state
unchanged, whether or not the named accounts exist. -/
theorem nonpositive_amount_rejected (s : BankState) (x y : String) (a : Int) (ha : a ≤ 0) :
    deposit s x a = (some errInvalidAmount, s) ∧
    withdraw s x a = some (some errInvalidAmount, s) ∧
    transfer s x y a = some (some errInvalidAmount, s) ∧
    buy_investment s x a = some (some errInvalidAmount, s) := by
  refine ⟨?_, ?_, ?_, ?_⟩ <;> simp [deposit, withdraw, transfer, buy_investment, ha]

/-- Witness for C4 at a concrete state and amount 0. -/
theorem nonpositive_amount_rejected_witness :
    deposit ⟨[("A", 5)], [], 0⟩ "A" 0 = (some errInvalidAmount, ⟨[("A", 5)], [], 0⟩) :=
  (nonpositive_amount_rejected ⟨[("A", 5)], [], 0⟩ "A" "B" 0 (by decide)).1

/-- C5: when the actor is present with balance below a positive amount,
withdraw, transfer and buy_investment return the InsufficientBalance error
and leave the state unchanged. -/
theorem insufficient_balance_rejected (s : BankState) (x y : String) (n b : Int)
    (hb : lookupBal s.balances x = some b) (hn : 0 < n) (hlt : b < n) :
    withdraw s x n = some (some errInsufficientBalance, s) ∧
    transfer s x y n = some (some errInsufficientBalance, s) ∧
    buy_investment s x n = some (some errInsufficientBalance, s) := by
  have hn0 : ¬ n ≤ 0 := not_le.mpr hn
  refine ⟨?_, ?_, ?_⟩ <;> simp [withdraw, transfer, buy_investment, hn0, hb, hlt]

/-- Witness for C5: balance 2 cannot cover amount 5. -/
theorem insufficient_balance_rejected_witness :
    withdraw ⟨[("A", 2)], [], 0⟩ "A" 5 = some (some errInsufficientBalance, ⟨[("A", 2)], [], 0⟩) :=
  (insufficient_balance_rejected ⟨[("A", 2)], [], 0⟩ "A" "B" 5 2 (by decide) (by decide)
    (by decide)).1

/-- C6: sell_investment returns UnknownInvestment when the id is absent and
UnauthorizedSale when the investment is owned by someone else; in both cases
the state is unchanged. -/
theorem sell_investment_failures (s : BankState) (seller : String) (id : Int) :
    (lookupInv s.investments id = none →
      sell_investment s seller id = (some errUnknownInvestment, s)) ∧
    (∀ inv, lookupInv s.investments id = some inv → inv.owner ≠ seller →
      sell_investment s seller id = (some errUnauthorizedSale, s)) := by
  constructor
  · intro h
    simp [sell_investment, h]
  · intro inv h hne
    simp [sell_investment, h, hne]

/-- Witness for C6: unknown id 7, and id 0 owned by B sold by A. -/
theorem sell_investment_failures_witness :
    sell_investment ⟨[("A", 5)], [(0, ⟨"B", 3⟩)], 1⟩ "A" 7 =
      (some errUnknownInvestment, ⟨[("A", 5)], [(0, ⟨"B", 3⟩)], 1⟩) ∧
    sell_investment ⟨[("A", 5)], [(0, ⟨"B", 3⟩)], 1⟩ "A" 0 =
      (some errUnauthorizedSale, ⟨[("A", 5)], [(0, ⟨"B", 3⟩)], 1⟩) :=
  ⟨(sell_investment_failures ⟨[("A", 5)], [(0, ⟨"B", 3⟩)], 1⟩ "A" 7).1 (by decide),
   (sell_investment_failures ⟨[("A", 5)], [(0, ⟨"B", 3⟩)], 1⟩ "A" 0).2 ⟨"B", 3⟩ (by decide)
     (by decide)⟩

theorem andModify_andModify (bs : List (String × Int)) (key : String) (f g : Int → Int) :
    andModify (andModify bs key f) key g = andModify bs key (fun v => g (f v)) := by
  induction bs with
  | nil => rfl
  | cons p rest ih =>
    obtain ⟨k, v⟩ := p
    by_cases hk : k = key
    · simp [andModify, hk]
    · simp [andModify, hk, ih]

theorem andModify_congr_id (bs : List (String × Int)) (key : String) (f : Int → Int)
    (hf : ∀ v, f v = v) : andModify bs key f = bs := by
  induction bs with
  | nil => rfl
  | cons p rest ih =>
    obtain ⟨k, v⟩ := p
    by_cases hk : k = key
    · simp [andModify, hk, hf]
    · simp [andModify, hk, ih]

/-- C2: selling an owned investment succeeds, credits the owner's balance by
the investment's amount, changes neither `next_id` nor the investments map,
and can therefore be repeated, crediting the amount again. -/
theorem sell_investment_owner_succeeds (s : BankState) (seller : String) (id : Int)
    (inv : Investment) (b : Int)
    (hinv : lookupInv s.investments id = some inv) (hown : inv.owner = seller)
    (hb : lookupBal s.balances seller = some b) :
    (sell_investment s seller id).1 = none ∧
    lookupBal (sell_investment s seller id).2.balances seller = some (b + inv.amount) ∧
    (sell_investment s seller id).2.next_id = s.next_id ∧
    (sell_investment s seller id).2.investments = s.investments ∧
    (sell_investment (sell_investment s seller id).2 seller id).1 = none ∧
    lookupBal (sell_investment (sell_investment s seller id).2 seller id).2.balances seller
      = some (b + inv.amount + inv.amount) := by
  have h1 : sell_investment s seller id =
      (none, { s with balances := andModify s.balances seller (fun curr => curr + inv.amount) }) := by
    simp [sell_investment, hinv, hown]
  have hb1 : lookupBal (andModify s.balances seller (fun curr => curr + inv.amount)) seller
      = some (b + inv.amount) := by
    rw [lookupBal_andModify_self, hb]
    rfl
  have h2 : sell_investment { s with balances := andModify s.balances seller (fun curr => curr + inv.amount) } seller id = (none, { s with balances := andModify (andModify s.balances seller (fun curr => curr + inv.amount)) seller (fun curr => curr + inv.amount) }) := by
    simp [sell_investment, hinv, hown]
  have hb2 : lookupBal
      (andModify (andModify s.balances seller (fun curr => curr + inv.amount)) seller
        (fun curr => curr + inv.amount)) seller = some (b + inv.amount + inv.amount) := by
    rw [lookupBal_andModify_self, hb1]
    rfl
  rw [h1]
  exact ⟨rfl, hb1, rfl, rfl, by rw [h2], by rw [h2]; exact hb2⟩

/-- Witness for C2: A owns investment 0 of amount 3 and holds balance 5;
selling it twice yields balance 11. -/
theorem sell_investment_owner_succeeds_witness :
    lookupBal (sell_investment
      (sell_investment ⟨[("A", 5)], [(0, ⟨"A", 3⟩)], 1⟩ "A" 0).2 "A" 0).2.balances "A"
      = some 11 :=
  (sell_investment_owner_succeeds ⟨[("A", 5)], [(0, ⟨"A", 3⟩)], 1⟩ "A" 0 ⟨"A", 3⟩ 5
    (by decide) (by decide) (by decide)).2.2.2.2.2

/-- C8: for an account present with a non-negative balance and any positive
amount, deposit then withdraw of the same amount both succeed and restore the
entire state exactly. -/
theorem deposit_withdraw_roundtrip (s : BankState) (x : String) (b n : Int)
    (hb : lookupBal s.balances x = some b) (hb0 : 0 ≤ b) (hn : 0 < n) :
    (deposit s x n).1 = none ∧ withdraw (deposit s x n).2 x n = some (none, s) := by
  have hn0 : ¬ n ≤ 0 := not_le.mpr hn
  have hdep : deposit s x n =
      (none, { s with balances := andModify s.balances x (fun curr => curr + n) }) := by
    simp [deposit, hn0]
  have hl : lookupBal (andModify s.balances x (fun curr => curr + n)) x = some (b + n) := by
    rw [lookupBal_andModify_self, hb]
    rfl
  have hge : ¬ (b + n < n) := by omega
  have hback : andModify (andModify s.balances x (fun curr => curr + n)) x
      (fun curr => curr - n) = s.balances := by
    rw [andModify_andModify]
    exact andModify_congr_id _ _ _ (fun v => by omega)
  refine ⟨by rw [hdep], ?_⟩
  rw [hdep]
  simp [withdraw, hn0, hl, hge, hback]

/-- Witness for C8 at balance 0 and amount 1. -/
theorem deposit_withdraw_roundtrip_witness :
    withdraw (deposit ⟨[("A", 0)], [], 0⟩ "A" 1).2 "A" 1 = some (none, ⟨[("A", 0)], [], 0⟩) :=
  (deposit_withdraw_roundtrip ⟨[("A", 0)], [], 0⟩ "A" 0 1 (by decide) (by decide) (by decide)).2

/-- C9: with a positive amount and the actor absent from `balances`, deposit
succeeds while changing nothing, whereas withdraw, transfer (absent sender)
and buy_investment fail abruptly at the balance lookup (outer `none`); when
the actor is present, that abrupt-failure branch is unreachable. -/
theorem absent_actor_behavior (s : BankState) (x y : String) (n : Int)
    (habs : lookupBal s.balances x = none) (hn : 0 < n) :
    deposit s x n = (none, s) ∧
    withdraw s x n = none ∧
    transfer s x y n = none ∧
    buy_investment s x n = none ∧
    (∀ z m b, lookupBal s.balances z = some b →
      withdraw s z m ≠ none ∧ transfer s z y m ≠ none ∧ buy_investment s z m ≠ none) := by
  have hn0 : ¬ n ≤ 0 := not_le.mpr hn
  refine ⟨?_, ?_, ?_, ?_, ?_⟩
  · simp [deposit, hn0, andModify_absent s.balances x _ habs]
  · simp [withdraw, hn0, habs]
  · simp [transfer, hn0, habs]
  · simp [buy_investment, hn0, habs]
  · intro z m b hz
    by_cases hm : m ≤ 0
    · exact ⟨by simp [withdraw, hm], by simp [transfer, hm], by simp [buy_investment, hm]⟩
    · refine ⟨?_, ?_, ?_⟩
      · by_cases hbm : b < m <;> simp [withdraw, hm, hz, hbm]
      · by_cases hbm : b < m <;> simp [transfer, hm, hz, hbm]
      · by_cases hbm : b < m <;> simp [buy_investment, hm, hz, hbm]

/-- Witness for C9: account A is absent, account B is present. -/
theorem absent_actor_behavior_witness :
    deposit ⟨[("B", 5)], [], 0⟩ "A" 1 = (none, ⟨[("B", 5)], [], 0⟩) ∧
    withdraw ⟨[("B", 5)], [], 0⟩ "A" 1 = none ∧
    withdraw ⟨[("B", 5)], [], 0⟩ "B" 1 ≠ none :=
  ⟨(absent_actor_behavior ⟨[("B", 5)], [], 0⟩ "A" "B" 1 (by decide) (by decide)).1,
   (absent_actor_behavior ⟨[("B", 5)], [], 0⟩ "A" "B" 1 (by decide) (by decide)).2.1,
   ((absent_actor_behavior ⟨[("B", 5)], [], 0⟩ "A" "B" 1 (by decide) (by decide)).2.2.2.2
     "B" 1 5 (by decide)).1⟩

/-- C10: a successful transfer to a receiver absent from `balances` debits
the sender but credits nobody: the receiver stays absent and the total of
all balances drops by exactly the transferred amount. -/
theorem transfer_absent_receiver (s : BankState) (sender receiver : String) (n b : Int)
    (hb : lookupBal s.balances sender = some b) (hn : 0 < n) (hge : n ≤ b)
    (habs : lookupBal s.balances receiver = none) (hne : sender ≠ receiver) :
    ∃ s2, transfer s sender receiver n = some (none, s2) ∧
      lookupBal s2.balances sender = some (b - n) ∧
      lookupBal s2.balances receiver = none ∧
      sumBal s2.balances = sumBal s.balances - n ∧
      s2.investments = s.investments ∧ s2.next_id = s.next_id := by
  have hn0 : ¬ n ≤ 0 := not_le.mpr hn
  have hlt : ¬ b < n := not_lt.mpr hge
  have habs1 : lookupBal (andModify s.balances sender (fun curr => curr - n)) receiver = none := by
    rw [lookupBal_andModify_ne _ _ _ _ (Ne.symm hne)]
    exact habs
  have hnoop : andModify (andModify s.balances sender (fun curr => curr - n)) receiver
      (fun curr => curr + n) = andModify s.balances sender (fun curr => curr - n) :=
    andModify_absent _ _ _ habs1
  refine ⟨{ s with balances := andModify s.balances sender (fun curr => curr - n) }, ?_, ?_, ?_, ?_, rfl, rfl⟩
  · simp [transfer, hn0, hb, hlt, hnoop]
  · rw [lookupBal_andModify_self, hb]
    rfl
  · exact habs1
  · rw [sumBal_andModify s.balances sender _ b hb]
    ring

/-- Witness for C10: transferring 3 from A (balance 5) to the absent B. -/
theorem transfer_absent_receiver_witness :
    ∃ s2, transfer ⟨[("A", 5)], [], 0⟩ "A" "B" 3 = some (none, s2) ∧
      lookupBal s2.balances "A" = some 2 ∧
      lookupBal s2.balances "B" = none ∧
      sumBal s2.balances = sumBal [("A", (5 : Int))] - 3 ∧
      s2.investments = [] ∧ s2.next_id = 0 :=
  transfer_absent_receiver ⟨[("A", 5)], [], 0⟩ "A" "B" 3 5 (by decide) (by decide) (by decide)
    (by decide) (by decide)

/-- Number of investment records in an operation result (`none` = panic). -/
def invCount (r : Option (Option String × BankState)) : Option Nat :=
  r.map (fun p => p.2.investments.length)

/-- An account's balance in an operation result (`none` = panic). -/
def balanceAfter (r : Option (Option String × BankState)) (who : String) : Option (Option Int) :=
  r.map (fun p => lookupBal p.2.balances who)

/-- Total of all balances in an operation result (`none` = panic). -/
def sumAfter (r : Option (Option String × BankState)) : Option Int :=
  r.map (fun p => sumBal p.2.balances)

/-- C1 counterexample: in a state where `next_id` already keys an investment
(balances A=10, investment 0 owned by B, next_id = 0) and all of the claim's
hypotheses hold, a successful `buy_investment` overwrites that record instead
of adding a new one: the number of investment records does not grow by 1. -/
theorem buy_investment_one_new_cex :
    (0 : Int) < 1 ∧
    lookupBal (BankState.mk [("A", 10)] [(0, ⟨"B", 5⟩)] 0).balances "A" = some 10 ∧
    (1 : Int) ≤ 10 ∧
    invCount (buy_investment (BankState.mk [("A", 10)] [(0, ⟨"B", 5⟩)] 0) "A" 1) ≠
      some ((BankState.mk [("A", 10)] [(0, ⟨"B", 5⟩)] 0).investments.length + 1) := by
  decide

/-- C1 (amended): when the buyer is present with sufficient balance, the
amount is positive, and `next_id` does not already key an investment record,
buy_investment succeeds, debits the buyer by exactly the amount, adds exactly
one new record `{owner: buyer, amount}` under the pre-call `next_id`,
increments `next_id` by 1, and changes no other balance or investment. -/
theorem buy_investment_success (s : BankState) (buyer : String) (n b : Int)
    (hb : lookupBal s.balances buyer = some b) (hn : 0 < n) (hge : n ≤ b)
    (hfresh : lookupInv s.investments s.next_id = none) :
    ∃ s2, buy_investment s buyer n = some (none, s2) ∧
      lookupBal s2.balances buyer = some (b - n) ∧
      (∀ z, z ≠ buyer → lookupBal s2.balances z = lookupBal s.balances z) ∧
      lookupInv s2.investments s.next_id = some ⟨buyer, n⟩ ∧
      (∀ k, k ≠ s.next_id → lookupInv s2.investments k = lookupInv s.investments k) ∧
      s2.investments.length = s.investments.length + 1 ∧
      s2.next_id = s.next_id + 1 := by
  have hn0 : ¬ n ≤ 0 := not_le.mpr hn
  have hlt : ¬ b < n := not_lt.mpr hge
  refine ⟨⟨andModify s.balances buyer (fun curr => curr - n), insertInv s.investments s.next_id ⟨buyer, n⟩, s.next_id + 1⟩, ?_, ?_, ?_, ?_, ?_, ?_, rfl⟩
  · simp [buy_investment, hn0, hb, hlt]
  · rw [lookupBal_andModify_self, hb]
    rfl
  · intro z hz
    exact lookupBal_andModify_ne _ _ _ _ hz
  · exact lookupInv_insertInv_self _ _ _
  · intro k hk
    exact lookupInv_insertInv_ne _ _ _ _ hk
  · exact length_insertInv_absent _ _ _ hfresh

/-- Witness for amended C1: A buys for 2 out of balance 5, ending at 3. -/
theorem buy_investment_success_witness :
    balanceAfter (buy_investment ⟨[("A", 5)], [], 0⟩ "A" 2) "A" = some (some 3) := by
  obtain ⟨s2, h1, h2, -⟩ := buy_investment_success ⟨[("A", 5)], [], 0⟩ "A" 2 5
    (by decide) (by decide) (by decide) (by decide)
  simp [balanceAfter, h1]
  exact h2

/-- C3 counterexample: with balances {A: 5} only, transfer(A, B, 3) meets the
claim's hypotheses and succeeds, yet the total of all balances drops from 5
to 2: conservation fails when the receiver is absent. -/
theorem transfer_conservation_cex :
    (0 : Int) < 3 ∧
    lookupBal (BankState.mk [("A", 5)] [] 0).balances "A" = some 5 ∧
    (3 : Int) ≤ 5 ∧
    transfer (BankState.mk [("A", 5)] [] 0) "A" "B" 3 =
      some (none, BankState.mk [("A", 2)] [] 0) ∧
    sumBal (BankState.mk [("A", 2)] [] 0).balances ≠
      sumBal (BankState.mk [("A", 5)] [] 0).balances := by
  decide

/-- C3 (amended): when additionally the receiver is present in `balances`
and differs from the sender, a successful transfer debits the sender by
exactly n, credits the receiver by exactly n, and conserves the total of all
balances. -/
theorem transfer_conservation (s : BankState) (sender receiver : String) (n a b : Int)
    (ha : lookupBal s.balances sender = some a) (hn : 0 < n) (hge : n ≤ a)
    (hb : lookupBal s.balances receiver = some b) (hne : sender ≠ receiver) :
    ∃ s2, transfer s sender receiver n = some (none, s2) ∧
      lookupBal s2.balances sender = some (a - n) ∧
      lookupBal s2.balances receiver = some (b + n) ∧
      sumBal s2.balances = sumBal s.balances ∧
      s2.investments = s.investments ∧ s2.next_id = s.next_id := by
  have hn0 : ¬ n ≤ 0 := not_le.mpr hn
  have hlt : ¬ a < n := not_lt.mpr hge
  have hb1 : lookupBal (andModify s.balances sender (fun curr => curr - n)) receiver
      = some b := by
    rw [lookupBal_andModify_ne _ _ _ _ (Ne.symm hne)]
    exact hb
  refine ⟨{ s with balances := andModify (andModify s.balances sender (fun curr => curr - n)) receiver (fun curr => curr + n) }, ?_, ?_, ?_, ?_, rfl, rfl⟩
  · simp [transfer, hn0, ha, hlt]
  · rw [lookupBal_andModify_ne _ _ _ _ hne, lookupBal_andModify_self, ha]
    rfl
  · rw [lookupBal_andModify_self, hb1]
    rfl
  · rw [sumBal_andModify _ receiver _ b hb1, sumBal_andModify _ sender _ a ha]
    ring

/-- Witness for amended C3: transferring 3 from A to B conserves the total. -/
theorem transfer_conservation_witness :
    sumAfter (transfer ⟨[("A", 5), ("B", 1)], [], 0⟩ "A" "B" 3) =
      some (sumBal [("A", (5 : Int)), ("B", (1 : Int))]) := by
  obtain ⟨s2, h1, -, -, h4, -⟩ := transfer_conservation ⟨[("A", 5), ("B", 1)], [], 0⟩ "A" "B" 3
    5 1 (by decide) (by decide) (by decide) (by decide) (by decide)
  simp [sumAfter, h1]
  exact h4

/-- C7: `next_id` is unchanged by deposit, withdraw, transfer and
sell_investment; a successful buy_investment increments it by exactly 1 and
a failing one leaves the whole state unchanged. Moreover, when every
investment key is strictly below `next_id`, no investment record exists at
`next_id` (so buy_investment overwrites nothing and reuses no assigned id),
and every operation preserves that invariant. -/
theorem next_id_monotone_and_ids_fresh (s : BankState) (x y : String) (n id : Int) :
    (deposit s x n).2.next_id = s.next_id ∧
    (∀ r, withdraw s x n = some r → r.2.next_id = s.next_id) ∧
    (∀ r, transfer s x y n = some r → r.2.next_id = s.next_id) ∧
    (sell_investment s x id).2.next_id = s.next_id ∧
    (∀ r, buy_investment s x n = some r →
      (r.1 = none → r.2.next_id = s.next_id + 1) ∧ (r.1 ≠ none → r.2 = s)) ∧
    (goodIds s →
      lookupInv s.investments s.next_id = none ∧
      goodIds (deposit s x n).2 ∧
      (∀ r, withdraw s x n = some r → goodIds r.2) ∧
      (∀ r, transfer s x y n = some r → goodIds r.2) ∧
      goodIds (sell_investment s x id).2 ∧
      (∀ r, buy_investment s x n = some r → goodIds r.2 ∧
        ∀ k, k ≠ s.next_id → lookupInv r.2.investments k = lookupInv s.investments k)) := by
  refine ⟨(deposit_shape s x n).2, fun r h => (withdraw_shape s x n r h).2,
    fun r h => (transfer_shape s x y n r h).2, (sell_investment_shape s x id).2, ?_, ?_⟩
  · intro r h
    rcases buy_investment_shape s x n r h with ⟨h1, h2, h3⟩ | ⟨h1, h2⟩
    · exact ⟨fun _ => h3, fun hc => absurd h1 hc⟩
    · exact ⟨fun hc => absurd hc h1, fun _ => h2⟩
  · intro hg
    refine ⟨lookupInv_eq_none_of_keys_lt s.investments s.next_id hg, ?_, ?_, ?_, ?_, ?_⟩
    · exact goodIds_of_eq s _ (deposit_shape s x n).1 (deposit_shape s x n).2 hg
    · intro r h
      exact goodIds_of_eq s _ (withdraw_shape s x n r h).1 (withdraw_shape s x n r h).2 hg
    · intro r h
      exact goodIds_of_eq s _ (transfer_shape s x y n r h).1 (transfer_shape s x y n r h).2 hg
    · exact goodIds_of_eq s _ (sell_investment_shape s x id).1 (sell_investment_shape s x id).2 hg
    · intro r h
      rcases buy_investment_shape s x n r h with ⟨h1, h2, h3⟩ | ⟨h1, h2⟩
      · constructor
        · intro p hp
          rw [h2] at hp
          rcases mem_insertInv s.investments s.next_id ⟨x, n⟩ p hp with hm | hm
          · rw [h3]
            exact lt_trans (hg p hm) (lt_add_one s.next_id)
          · rw [h3, hm]
            exact lt_add_one s.next_id
        · intro k hk
          rw [h2]
          exact lookupInv_insertInv_ne s.investments s.next_id k ⟨x, n⟩ hk
      · exact ⟨goodIds_of_eq s r.2 (by rw [h2]) (by rw [h2]) hg, fun k hk => by rw [h2]⟩

/-- Witness for C7: in a state whose only investment key 0 is below
next_id = 1, no record exists at next_id. -/
theorem next_id_monotone_and_ids_fresh_witness :
    lookupInv [((0 : Int), Investment.mk "A" 2)] 1 = none :=
  ((next_id_monotone_and_ids_fresh ⟨[("A", 5)], [(0, ⟨"A", 2⟩)], 1⟩ "A" "B" 1 0).2.2.2.2.2
    (by decide)).1
